import Mathlib

/-!
Northfoot: the certificate issuance engine

A shallow embedding of `internal/server/sign.go`, `internal/server/validation/signer.go`
and `internal/util/util.go`, with the Go standard library (crypto/x509, crypto/rand, time),
the connect error codes and the SQL store kept at their documented behaviour.

Conventions
* instants and durations are `Int` nanoseconds (Go `time.Duration`; wall clock since the epoch);
* the outcomes of the environment during one call (random source, clock reads, key
  generation, I/O failures) are the fields of `Env`;
* a Go `(value, error)` result is an `Outcome`, which also records a run-time panic;
* Go maps are finite partial functions `Int → Option _`.
-/

namespace Northfoot

/-! ## Errors -/

/-- The connect status codes this program uses; `CodeUnknown` is what connect reports for an
error that carries no code. -/
inductive Code
  | CodeInvalidArgument
  | CodeNotFound
  | CodeInternal
  | CodeUnknown
  deriving DecidableEq, Repr

/-- Go error values: `errors.New` or `fmt.Errorf` without a wrapped cause, `fmt.Errorf` with
`%w`, and `connect.NewError`. -/
inductive GoError
  | errorsNew (msg : String)
  | wrap (msg : String) (inner : GoError)
  | connectError (code : Code) (inner : GoError)
  deriving DecidableEq, Repr

/-- The `Error()` text of an error made by `errors.New`, and of a `%w` wrapper around one. -/
def GoError.Error : GoError → String
  | .errorsNew msg => msg
  | .wrap msg inner => msg ++ inner.Error
  | .connectError _ inner => inner.Error

/-- The code connect reports for an error (`connect.CodeOf`): the code of the first
`*connect.Error` on the unwrap chain, `CodeUnknown` when there is none. -/
def connectCodeOf : GoError → Code
  | .errorsNew _ => .CodeUnknown
  | .wrap _ inner => connectCodeOf inner
  | .connectError code _ => code

/-- The error taxonomy of the service boundary. -/
inductive ErrorKind
  | ValidationError
  | NotFoundError
  | InternalError
  | Unclassified
  deriving DecidableEq, Repr

/-- The caller-visible kind of an error returned by a handler: one kind per connect code. -/
def errorKind (e : GoError) : ErrorKind :=
  match connectCodeOf e with
  | .CodeInvalidArgument => .ValidationError
  | .CodeNotFound => .NotFoundError
  | .CodeInternal => .InternalError
  | .CodeUnknown => .Unclassified

/-- The result of a Go call returning `(value, error)`, or panicking. -/
inductive Outcome (α : Type)
  | ok (a : α)
  | err (e : GoError)
  | panic (msg : String)
  deriving DecidableEq, Repr

/-! ## Decimal rendering (`strconv`) -/

namespace strconv

/-- The least significant decimal digit first; `fuel` bounds the number of digits. -/
def revDigits : Nat → Nat → List Char
  | 0, _ => []
  | fuel + 1, n =>
    Char.ofNat (48 + n % 10) :: (if n / 10 = 0 then [] else revDigits fuel (n / 10))

/-- The function `strconv.Itoa`: the decimal rendering of an integer. -/
def Itoa (n : Int) : String :=
  String.mk ((if n < 0 then ['-'] else []) ++ (revDigits (n.natAbs + 1) n.natAbs).reverse)

end strconv

/-! ## Management API messages (`api/mgmt/v1`) -/

namespace mgmtv1

/-- Modelled from the spec: the generated enum `SignerType` (package `api/mgmt/v1`) is
referenced by the sources through `SIGNER_TYPE_UNSPECIFIED` and `SIGNER_TYPE_INMEM`; a wire
number that is neither of the two is `unrecognized`. -/
inductive SignerType
  | SIGNER_TYPE_UNSPECIFIED
  | SIGNER_TYPE_INMEM
  | unrecognized (n : Int)
  deriving DecidableEq, Repr

/-- Modelled from the spec: the generated enum `PrivateKeyType` (package `api/mgmt/v1`) is
referenced by the sources through `PRIVATE_KEY_TYPE_UNSPECIFIED` and `PRIVATE_KEY_TYPE_RSA`;
a wire number that is neither of the two is `unrecognized`. -/
inductive PrivateKeyType
  | PRIVATE_KEY_TYPE_UNSPECIFIED
  | PRIVATE_KEY_TYPE_RSA
  | unrecognized (n : Int)
  deriving DecidableEq, Repr

/-- Modelled from the spec: the in-memory backend parameters, a key algorithm and an
optional key size (`*int64`). -/
structure SignerInMemConfig where
  Key : PrivateKeyType
  KeySize : Option Int
  deriving DecidableEq, Repr

/-- Modelled from the spec: the `SignerConfig` oneof; its one known arm `Signer_InMem`
holds a pointer (possibly nil) to the in-memory parameters. -/
inductive isSigner_SignerConfig
  | Signer_InMem (InMem : Option SignerInMemConfig)
  deriving DecidableEq, Repr

/-- Modelled from the spec: the persisted signer configuration message. `Id`, `Name` and
`Description` are optional (pointer) fields; a nil `SignerConfig` interface is `none`;
the field `Type` is written `Type_`. -/
structure Signer where
  Id : Option Int
  Name : Option String
  Description : Option String
  Type_ : SignerType
  SignerConfig : Option isSigner_SignerConfig
  deriving DecidableEq, Repr

/-- The `String()` method of the generated enum: the declared name, and the decimal number
for a value without one. -/
def SignerType.String : SignerType → String
  | .SIGNER_TYPE_UNSPECIFIED => "SIGNER_TYPE_UNSPECIFIED"
  | .SIGNER_TYPE_INMEM => "SIGNER_TYPE_INMEM"
  | .unrecognized n => strconv.Itoa n

end mgmtv1

/-! ## `internal/server/validation` -/

namespace validation

def ErrNilSigner : GoError := .errorsNew "signer is nil"
def ErrMissingID : GoError := .errorsNew "signer id is missing"
def ErrMissingType : GoError := .errorsNew "signer type is missing"
def ErrNilConfig : GoError := .errorsNew "signer config is nil"
def ErrMissingKeyType : GoError := .errorsNew "signer key type is missing"

/-- The messages collected by `validation.Signer`, in source order. -/
def signerErrs (s : mgmtv1.Signer) : List String :=
  (if s.Id = none ∨ s.Id = some 0 then [ErrMissingID.Error] else [])
  ++ (if s.Type_.String = "SIGNER_TYPE_UNSPECIFIED" ∨ s.Type_.String = "" then
        [ErrMissingType.Error] else [])
  ++ (if s.SignerConfig = none then [ErrNilConfig.Error] else [])

/-- The function `validation.Signer`: `none` is the nil error (the config is accepted). -/
def Signer (s : Option mgmtv1.Signer) : Option GoError :=
  match s with
  | none => some ErrNilSigner
  | some s =>
    let errs := signerErrs s
    if errs.length > 0 then
      some (.errorsNew ("signer validation failed: " ++ ", ".intercalate errs))
    else none

end validation

/-! ## Standard library: `crypto/x509`, `crypto/rand`, `time` -/

/-- The duration `time.Hour`, in nanoseconds. -/
def time.Hour : Int := 3600 * 1000000000

/-- An instant cut to whole seconds: the precision of the validity fields of an encoded
certificate (UTCTime and GeneralizedTime carry no fraction of a second). -/
def truncSecond (t : Int) : Int := t / 1000000000 * 1000000000

/-- A public key, kept abstract. -/
abbrev PublicKey := Nat

/-- The dynamic type of a `crypto.Signer`. -/
inductive KeyKind
  | rsa
  | ecdsa
  | ed25519
  | other
  deriving DecidableEq, Repr

/-- A private key: its dynamic type and the public half returned by `Public()`. -/
structure PrivateKey where
  kind : KeyKind
  Public : PublicKey
  deriving DecidableEq, Repr

namespace x509

/-- The type `x509.PublicKeyAlgorithm`. -/
inductive PublicKeyAlgorithm
  | UnknownPublicKeyAlgorithm
  | RSA
  | DSA
  | ECDSA
  | Ed25519
  deriving DecidableEq, Repr

/-- The type `x509.ExtKeyUsage`. -/
inductive ExtKeyUsage
  | ExtKeyUsageAny
  | ExtKeyUsageServerAuth
  | ExtKeyUsageClientAuth
  | ExtKeyUsageCodeSigning
  | ExtKeyUsageEmailProtection
  | ExtKeyUsageIPSECEndSystem
  | ExtKeyUsageIPSECTunnel
  | ExtKeyUsageIPSECUser
  | ExtKeyUsageTimeStamping
  | ExtKeyUsageOCSPSigning
  deriving DecidableEq, Repr

/-- The bit set `x509.KeyUsage`. -/
abbrev KeyUsage := Nat

def KeyUsageDigitalSignature : KeyUsage := 1
def KeyUsageContentCommitment : KeyUsage := 2
def KeyUsageKeyEncipherment : KeyUsage := 4
def KeyUsageDataEncipherment : KeyUsage := 8
def KeyUsageKeyAgreement : KeyUsage := 16
def KeyUsageCertSign : KeyUsage := 32
def KeyUsageCRLSign : KeyUsage := 64

end x509

namespace pkix

/-- The type `pkix.Name`. -/
structure Name where
  Country : List String := []
  Organization : List String := []
  OrganizationalUnit : List String := []
  Locality : List String := []
  Province : List String := []
  StreetAddress : List String := []
  PostalCode : List String := []
  SerialNumber : String := ""
  CommonName : String := ""
  deriving DecidableEq, Repr

end pkix

namespace x509

/-- The content fields of `x509.Certificate` that this program sets or reads. An IP address
is its byte slice, a URI its text. -/
structure CertFields where
  Version : Int := 0
  BasicConstraintsValid : Bool := false
  SerialNumber : Nat := 0
  PublicKeyAlgorithm : PublicKeyAlgorithm := .UnknownPublicKeyAlgorithm
  PublicKey : Option PublicKey := none
  IsCA : Bool := false
  Issuer : pkix.Name := {}
  Subject : pkix.Name := {}
  RawSubject : List Nat := []
  NotBefore : Int := 0
  NotAfter : Int := 0
  KeyUsage : KeyUsage := 0
  ExtKeyUsage : List ExtKeyUsage := []
  DNSNames : List String := []
  IPAddresses : List (List Nat) := []
  EmailAddresses : List String := []
  URIs : List String := []
  deriving DecidableEq, Repr

/-- The DER bytes of a certificate, kept abstract as the content they encode and the public
half of the key that signed them. -/
structure DER where
  content : CertFields
  signedBy : PublicKey
  deriving DecidableEq, Repr

/-- The type `x509.Certificate`: the content fields and `Raw`, the bytes a parsed certificate
was read from (`none` for a template, whose `Raw` is empty). -/
structure Certificate extends CertFields where
  Raw : Option DER := none
  deriving DecidableEq, Repr

/-- The type `x509.CertificateRequest`. The self-signature is kept abstract as `sigKey`: the
public key under which it verifies, `none` when it is missing or verifies under no key. -/
structure CertificateRequest where
  PublicKeyAlgorithm : PublicKeyAlgorithm
  PublicKey : PublicKey
  Subject : pkix.Name
  RawSubject : List Nat
  DNSNames : List String
  IPAddresses : List (List Nat)
  EmailAddresses : List String
  URIs : List String
  sigKey : Option Northfoot.PublicKey
  deriving DecidableEq, Repr

/-- The method `CheckSignature` of a request: the self-signature verifies against the
embedded public key. -/
def CertificateRequest.CheckSignature (csr : CertificateRequest) : Option GoError :=
  if csr.sigKey = some csr.PublicKey then none
  else some (.errorsNew "x509: invalid signature")

/-- The bytes of a signing request as received: either they decode to a PKCS#10 request or
they do not. -/
inductive CSRBytes
  | malformed (bytes : List Nat)
  | pkcs10 (csr : CertificateRequest)
  deriving DecidableEq, Repr

/-- The function `x509.ParseCertificateRequest`. -/
def ParseCertificateRequest : CSRBytes → Except GoError CertificateRequest
  | .malformed _ => .error (.errorsNew "x509: malformed certificate request")
  | .pkcs10 csr => .ok csr

/-- The method `To4` as used by the SAN encoder: a 16-byte IPv4-mapped address is written in
its 4-byte form, any other address as it is. -/
def ipTo4 (ip : List Nat) : List Nat :=
  if ip.length = 16 ∧ ip.take 10 = List.replicate 10 0 ∧ ip.drop 10 = [255, 255] ++ ip.drop 12
  then ip.drop 12 else ip

/-- The function `x509.CreateCertificate`: the bytes encode the template with the issuer
taken from the parent's subject, the public key from `pub`, and the validity instants at
the precision of a second; `failure` is the error of the encoder or of the signing
primitive, when there is one. -/
def CreateCertificate (failure : Option String) (template parent : Certificate)
    (pub : PublicKey) (priv : PrivateKey) : Except GoError DER :=
  match failure with
  | some msg => .error (.errorsNew msg)
  | none =>
    .ok { content :=
            { template.toCertFields with
              Issuer := parent.Subject
              PublicKey := some pub
              NotBefore := truncSecond template.NotBefore
              NotAfter := truncSecond template.NotAfter
              IPAddresses := template.IPAddresses.map ipTo4 }
          signedBy := priv.Public }

/-- The function `x509.ParseCertificate`; `failure` is the error of the decoder, when there
is one. -/
def ParseCertificate (failure : Option String) (der : DER) : Except GoError Certificate :=
  match failure with
  | some msg => .error (.errorsNew msg)
  | none => .ok { toCertFields := der.content, Raw := some der }

end x509

/-- The outcomes of the environment while one certificate is made: the draw of
`rand.Int(rand.Reader, 1 << 128)`, the two successive reads of `time.Now()`, and the errors
of `x509.CreateCertificate` and `x509.ParseCertificate`, when there are any. -/
structure Issuance where
  serial : Except String Nat
  now1 : Int
  now2 : Int
  createErr : Option String
  parseErr : Option String

/-- The outcomes of the environment during one call of a handler. -/
structure Env where
  /-- The error of `db.PrepareContext`, when there is one. -/
  prepareErr : Option String
  /-- The error of `QueryContext`, when there is one. -/
  queryErr : Option String
  /-- The error of `rows.Scan`, when there is one. -/
  scanErr : Option String
  /-- The error of `rows.Err`, when there is one. -/
  rowsErr : Option String := none
  /-- The error of `protojson.Marshal`, when there is one. -/
  marshalErr : Option String := none
  /-- The error of `ExecContext`, when there is one. -/
  execErr : Option String := none
  /-- The result of `rsa.GenerateKey(rand.Reader, bits)`: the public half of the new key. -/
  genKey : Int → Except String PublicKey
  /-- The environment of `util.GenerateSelfSignedCA`. -/
  ca : Issuance
  /-- The environment of `inMemSigner.Sign`. -/
  leaf : Issuance

/-! ## `internal/util` -/

namespace util

/-- The function `util.GenerateSelfSignedCA`. -/
def GenerateSelfSignedCA (env : Issuance) (key : PrivateKey) : Except GoError x509.Certificate :=
  match env.serial with
  | .error msg => .error (.wrap "failed to generate serial number: " (.errorsNew msg))
  | .ok serialNumber =>
    let keyAlgo : Option x509.PublicKeyAlgorithm :=
      match key.kind with
      | .rsa => some .RSA
      | .ecdsa => some .ECDSA
      | .ed25519 => some .Ed25519
      | .other => none
    match keyAlgo with
    | none => .error (.errorsNew "unsupported key type")
    | some keyAlgo =>
      let spiffeID := "spiffe://northfoot/ca"
      let template : x509.Certificate :=
        { Version := 2
          BasicConstraintsValid := true
          SerialNumber := serialNumber
          PublicKeyAlgorithm := keyAlgo
          IsCA := true
          Subject :=
            { Country := ["GB"]
              Organization := ["Northfoot"]
              OrganizationalUnit := ["Development self-signed CA"]
              SerialNumber := strconv.Itoa serialNumber
              CommonName := "Northfoot Development Self-Signed CA" }
          NotBefore := env.now1
          NotAfter := env.now2 + time.Hour * 24 * 365 * 10
          KeyUsage := x509.KeyUsageCertSign ||| x509.KeyUsageCRLSign
            ||| x509.KeyUsageDigitalSignature ||| x509.KeyUsageDataEncipherment
          ExtKeyUsage := [.ExtKeyUsageServerAuth, .ExtKeyUsageClientAuth,
            .ExtKeyUsageCodeSigning, .ExtKeyUsageEmailProtection, .ExtKeyUsageOCSPSigning]
          DNSNames := ["localhost"]
          IPAddresses := [[0, 0, 0, 0, 0, 0, 0, 0, 0, 0, 255, 255, 127, 0, 0, 1],
            [0, 0, 0, 0, 0, 0, 0, 0, 0, 0, 0, 0, 0, 0, 0, 1]]
          URIs := [spiffeID] }
      match x509.CreateCertificate env.createErr template template key.Public key with
      | .error e => .error (.wrap "failed to create certificate: " e)
      | .ok cert => x509.ParseCertificate env.parseErr cert

end util

/-! ## `internal/server`: signers -/

/-- The struct `inMemSigner`, the one implementation of the interface `signer`. -/
structure inMemSigner where
  key : PrivateKey
  cert : x509.Certificate
  keyUsage : x509.KeyUsage
  extKeyUsage : List x509.ExtKeyUsage
  deriving DecidableEq, Repr

/-- The leaf template built by `inMemSigner.Sign` for a request, a drawn serial number and
the duration in force (after the substitution of the default). -/
def inMemSigner.leafTemplate (i : inMemSigner) (env : Issuance) (csr : x509.CertificateRequest)
    (serialNumber : Nat) (durationHint : Int) : x509.Certificate :=
  { Version := 2
    BasicConstraintsValid := true
    SerialNumber := serialNumber
    PublicKeyAlgorithm := csr.PublicKeyAlgorithm
    PublicKey := some csr.PublicKey
    IsCA := false
    Subject := csr.Subject
    RawSubject := csr.RawSubject
    NotBefore := env.now1
    NotAfter := env.now2 + durationHint
    KeyUsage := i.keyUsage
    ExtKeyUsage := i.extKeyUsage
    DNSNames := csr.DNSNames
    IPAddresses := csr.IPAddresses
    EmailAddresses := csr.EmailAddresses
    URIs := csr.URIs }

/-- The method `inMemSigner.Sign`; a nil request is `none`. -/
def inMemSigner.Sign (i : inMemSigner) (env : Issuance) (csr : Option x509.CertificateRequest)
    (durationHint : Int) : Except GoError x509.Certificate :=
  match csr with
  | none => .error (.errorsNew "csr is nil")
  | some csr =>
    match csr.CheckSignature with
    | some e => .error (.wrap "CSR has invalid signature: " e)
    | none =>
      match env.serial with
      | .error msg => .error (.wrap "failed to generate serial number: " (.errorsNew msg))
      | .ok serialNumber =>
        let durationHint := if durationHint = 0 then time.Hour else durationHint
        let template := i.leafTemplate env csr serialNumber durationHint
        match x509.CreateCertificate env.createErr template i.cert csr.PublicKey i.key with
        | .error e => .error (.wrap "failed to create certificate: " e)
        | .ok der => x509.ParseCertificate env.parseErr der

/-- The method `inMemSigner.TrustBundle`. -/
def inMemSigner.TrustBundle (i : inMemSigner) : List x509.Certificate := [i.cert]

/-- The function `newInMemSigner`; its argument is the (non-nil) `*mgmtv1.Signer_InMem`. -/
def newInMemSigner (env : Env) (config : mgmtv1.isSigner_SignerConfig) : Outcome inMemSigner :=
  match config with
  | .Signer_InMem none => .panic "invalid memory address or nil pointer dereference"
  | .Signer_InMem (some InMem) =>
    match InMem.Key with
    | .PRIVATE_KEY_TYPE_UNSPECIFIED => .err validation.ErrMissingKeyType
    | .PRIVATE_KEY_TYPE_RSA =>
      let bits : Int := match InMem.KeySize with
        | some keySize => keySize
        | none => 2048
      match env.genKey bits with
      | .error msg => .err (.errorsNew msg)
      | .ok pub =>
        let key : PrivateKey := { kind := .rsa, Public := pub }
        match util.GenerateSelfSignedCA env.ca key with
        | .error e => .err e
        | .ok cert =>
          .ok { key := key
                cert := cert
                keyUsage := x509.KeyUsageDigitalSignature ||| x509.KeyUsageKeyEncipherment
                extKeyUsage := [.ExtKeyUsageServerAuth, .ExtKeyUsageClientAuth] }
    | .unrecognized _ => .err (.errorsNew "key type not implemented")

/-- The function `newSigner`; a nil config is `none`. The single-value type assertion on a
nil `SignerConfig` panics. -/
def newSigner (env : Env) (s : Option mgmtv1.Signer) : Outcome inMemSigner :=
  match s with
  | none => .err validation.ErrNilSigner
  | some s =>
    match s.Type_ with
    | .SIGNER_TYPE_UNSPECIFIED => .err validation.ErrMissingType
    | .SIGNER_TYPE_INMEM =>
      match s.SignerConfig with
      | none => .panic "interface conversion: interface is nil, not *mgmtv1.Signer_InMem"
      | some config => newInMemSigner env config
    | .unrecognized _ => .err (.errorsNew "signer type not implemented")

/-! ## `internal/server`: the store, the cache and the handlers -/

/-- The type `signerCache`, a `map[int64]signer`. -/
abbrev signerCache := Int → Option inMemSigner

/-- The empty map `make(signerCache)`. -/
def signerCache.make : signerCache := fun _ => none

/-- The assignment `c[k] = v`. -/
def signerCache.set (c : signerCache) (k : Int) (v : inMemSigner) : signerCache :=
  fun j => if j = k then some v else c j

/-- The loop `for k, v := range old { c[k] = v }`. -/
def signerCache.copyFrom (c old : signerCache) : signerCache :=
  fun j => match old j with
    | some v => some v
    | none => c j

/-- One row of the table `signers`: JSON text that `protojson.Unmarshal` decodes to a
config, or text that it rejects; `id` is then the value under the top-level key `id`. -/
inductive Row
  | signerJSON (s : mgmtv1.Signer)
  | otherJSON (id : Option Int) (msg : String)
  deriving DecidableEq, Repr

/-- The value under the top-level key `id` of the JSON text of a row. -/
def Row.id : Row → Option Int
  | .signerJSON s => s.Id
  | .otherJSON id _ => id

/-- The database: the rows of the table `signers`. -/
structure DB where
  signers : List Row
  deriving DecidableEq, Repr

/-- The rows selected by the query on the key `id`, in cursor order. -/
def DB.selectById (db : DB) (signerID : Int) : List Row :=
  db.signers.filter (fun r => decide (r.id = some signerID))

/-- The state of a `Server`: the store and the current snapshot of the signer cache. -/
structure Server where
  db : DB
  signerCache : signerCache

/-- The message `signv1.SignRequest`; `DurationHint` is the value of `AsDuration()`. -/
structure SignRequest where
  SignerId : Int
  Csr : x509.CSRBytes
  DurationHint : Int

/-- The message `signv1.SignResponse`. -/
structure SignResponse where
  Cert : Option x509.DER
  deriving DecidableEq, Repr

/-- The message `signv1.TrustBundleRequest`. -/
structure TrustBundleRequest where
  SignerId : Int

/-- The message `signv1.TrustBundleResponse`. -/
structure TrustBundleResponse where
  Certs : List (Option x509.DER)
  deriving DecidableEq, Repr

/-- The method `Server.loadSignerFromDataStore`: the result and the state after the call.
Only the first selected row is read (the loop breaks after it). -/
def Server.loadSignerFromDataStore (env : Env) (s : Server) (signerID : Int) :
    Outcome inMemSigner × Server :=
  match env.prepareErr with
  | some msg => (.err (.connectError .CodeInternal (.errorsNew msg)), s)
  | none =>
    match env.queryErr with
    | some msg => (.err (.connectError .CodeInternal (.errorsNew msg)), s)
    | none =>
      match s.db.selectById signerID with
      | [] => (.err (.errorsNew "signer not found"), s)
      | row :: _ =>
        match env.scanErr with
        | some msg => (.err (.wrap "error scanning signer: " (.errorsNew msg)), s)
        | none =>
          match row with
          | .otherJSON _ msg => (.err (.wrap "error unmarshalling signer: " (.errorsNew msg)), s)
          | .signerJSON signerPB =>
            match newSigner env (some signerPB) with
            | .err e => (.err (.wrap "error creating signer: " e), s)
            | .panic msg => (.panic msg, s)
            | .ok si =>
              let oldCache := s.signerCache
              let newCache := (signerCache.make.copyFrom oldCache).set signerID si
              (.ok si, { s with signerCache := newCache })

/-- The handler `Server.Sign`: the result and the state after the call. -/
def Server.Sign (env : Env) (s : Server) (req : SignRequest) : Outcome SignResponse × Server :=
  let cache := s.signerCache
  let found : Outcome inMemSigner × Server :=
    match cache req.SignerId with
    | some signer => (.ok signer, s)
    | none => s.loadSignerFromDataStore env req.SignerId
  match found with
  | (.err e, s1) => (.err e, s1)
  | (.panic msg, s1) => (.panic msg, s1)
  | (.ok signer, s1) =>
    match x509.ParseCertificateRequest req.Csr with
    | .error e => (.err (.connectError .CodeInvalidArgument e), s1)
    | .ok csr =>
      match signer.Sign env.leaf (some csr) req.DurationHint with
      | .error e => (.err (.connectError .CodeInternal e), s1)
      | .ok cert => (.ok { Cert := cert.Raw }, s1)

/-- The handler `Server.TrustBundle`: the result and the state after the call. -/
def Server.TrustBundle (env : Env) (s : Server) (req : TrustBundleRequest) :
    Outcome TrustBundleResponse × Server :=
  let cache := s.signerCache
  let found : Outcome inMemSigner × Server :=
    match cache req.SignerId with
    | some signer => (.ok signer, s)
    | none =>
      match s.loadSignerFromDataStore env req.SignerId with
      | (.err e, s1) => (.err (.connectError .CodeInternal e), s1)
      | r => r
  match found with
  | (.err e, s1) => (.err e, s1)
  | (.panic msg, s1) => (.panic msg, s1)
  | (.ok signer, s1) =>
    let certs := signer.TrustBundle
    let resp := certs.foldl (fun resp cert => resp ++ [cert.Raw]) []
    (.ok { Certs := resp }, s1)

/-! ## `internal/server`: the management handlers -/

/-- The loop `for k, v := range old { if k != skip { c[k] = v } }`. -/
def signerCache.copyFromExcept (c old : signerCache) (skip : Int) : signerCache :=
  fun j =>
    if j ≠ skip then
      match old j with
      | some v => some v
      | none => c j
    else c j

/-- The text written by `protojson.Marshal` for a message, as the row that holds the message
it decodes to; a nil message is written as the empty object, and an in-memory arm without
parameters as an arm with empty parameters. -/
def protojsonMarshal : Option mgmtv1.Signer → Row
  | some s =>
    match s.SignerConfig with
    | some (.Signer_InMem none) =>
      .signerJSON { s with SignerConfig := some (.Signer_InMem
        (some { Key := .PRIVATE_KEY_TYPE_UNSPECIFIED, KeySize := none })) }
    | _ => .signerJSON s
  | none => .signerJSON
      { Id := none, Name := none, Description := none,
        Type_ := .SIGNER_TYPE_UNSPECIFIED, SignerConfig := none }

/-- The statement `INSERT INTO signers (signer) VALUES (json(?))`: the table
(`"signer" TEXT NOT NULL COLLATE BINARY`, no key and no uniqueness constraint) gains
one row. -/
def DB.insert (db : DB) (row : Row) : DB :=
  { signers := db.signers ++ [row] }

/-- The statement `DELETE FROM signers WHERE EXISTS (SELECT * FROM signers,
json_each(signers.signer) WHERE json_each.key = 'id' AND json_each.value = ?)`: the inner
query names its own `signers`, so the condition is the same for every row of the table: it
holds when some row carries the ID. -/
def DB.deleteWhereExists (db : DB) (id : Int) : DB :=
  { signers := db.signers.filter (fun _ => decide (db.selectById id = [])) }

/-- The message `mgmtv1.GetSignerRequest`. -/
structure GetSignerRequest where
  Id : Int

/-- The message `mgmtv1.GetSignerResponse`. -/
structure GetSignerResponse where
  Signer : mgmtv1.Signer
  deriving DecidableEq, Repr

/-- The message `mgmtv1.CreateSignerRequest`; a nil `Signer` is `none`. -/
structure CreateSignerRequest where
  Signer : Option mgmtv1.Signer

/-- The message `mgmtv1.DeleteSignerRequest`. -/
structure DeleteSignerRequest where
  Id : Int

/-- The row loop of `Server.GetSigner`: every selected row is scanned and decoded, in
cursor order. -/
def decodeRows (scanErr : Option String) : List Row → Except GoError (List mgmtv1.Signer)
  | [] => .ok []
  | row :: rest =>
    match scanErr with
    | some msg => .error (.connectError .CodeInternal (.errorsNew msg))
    | none =>
      match row with
      | .otherJSON _ msg => .error (.connectError .CodeInternal (.errorsNew msg))
      | .signerJSON signer =>
        match decodeRows scanErr rest with
        | .error e => .error e
        | .ok signers => .ok (signer :: signers)

/-- The handler `Server.GetSigner`; it leaves the state as it is. -/
def Server.GetSigner (env : Env) (s : Server) (req : GetSignerRequest) :
    Outcome GetSignerResponse :=
  match env.prepareErr with
  | some msg => .err (.connectError .CodeInternal (.errorsNew msg))
  | none =>
    match env.queryErr with
    | some msg => .err (.connectError .CodeInternal (.errorsNew msg))
    | none =>
      match decodeRows env.scanErr (s.db.selectById req.Id) with
      | .error e => .err e
      | .ok signers =>
        match env.rowsErr with
        | some msg => .err (.connectError .CodeInternal (.errorsNew msg))
        | none =>
          match signers with
          | [] =>
            .err (.connectError .CodeNotFound
              (.errorsNew ("signer with id " ++ strconv.Itoa req.Id ++ " not found")))
          | signer :: [] => .ok { Signer := signer }
          | _ :: _ :: _ =>
            .err (.connectError .CodeInternal
              (.errorsNew ("multiple signers with id " ++ strconv.Itoa req.Id ++ " found")))

/-- The handler `Server.CreateSigner`: the result and the state after the call. -/
def Server.CreateSigner (env : Env) (s : Server) (req : CreateSignerRequest) :
    Outcome Unit × Server :=
  match validation.Signer req.Signer with
  | some err => (.err (.connectError .CodeInvalidArgument err), s)
  | none =>
    match env.prepareErr with
    | some msg => (.err (.connectError .CodeInternal (.errorsNew msg)), s)
    | none =>
      match env.marshalErr with
      | some msg => (.err (.connectError .CodeInternal (.errorsNew msg)), s)
      | none =>
        let raw := protojsonMarshal req.Signer
        match env.execErr with
        | some msg => (.err (.connectError .CodeInvalidArgument (.errorsNew msg)), s)
        | none => (.ok (), { s with db := s.db.insert raw })

/-- The handler `Server.DeleteSigner`: the result and the state after the call. -/
def Server.DeleteSigner (env : Env) (s : Server) (req : DeleteSignerRequest) :
    Outcome Unit × Server :=
  match env.prepareErr with
  | some msg => (.err (.connectError .CodeInternal (.errorsNew msg)), s)
  | none =>
    match env.execErr with
    | some msg => (.err (.connectError .CodeInvalidArgument (.errorsNew msg)), s)
    | none =>
      let db := s.db.deleteWhereExists req.Id
      let oldCache := s.signerCache
      let newCache := signerCache.make.copyFromExcept oldCache req.Id
      (.ok (), { db := db, signerCache := newCache })

/-- The state of a server after `Init` on a new datastore: an empty table and an empty
cache. -/
def Server.init : Server :=
  { db := { signers := [] }, signerCache := signerCache.make }

/-- The states reached from an empty store by a sequence of `CreateSigner` calls, failed
ones included. -/
def Server.createAll (env : Env) (s : Server) : List CreateSignerRequest → Server
  | [] => s
  | req :: rest => Server.createAll env (Server.CreateSigner env s req).2 rest

/-- The IDs held in the store, one per row, in table order. -/
def DB.ids (db : DB) : List (Option Int) := db.signers.map Row.id

/-- A config that `validation.Signer` accepts and whose in-memory arm holds no
parameters. -/
def hollowConfig : mgmtv1.Signer :=
  { Id := some 1
    Name := some "test"
    Description := none
    Type_ := .SIGNER_TYPE_INMEM
    SignerConfig := some (.Signer_InMem none) }

/-! ## Sample values (after `cmd/client/testclient.go`) -/

/-- The config created by the test client: an in-memory RSA signer with id 1. -/
def sampleConfig : mgmtv1.Signer :=
  { Id := some 1
    Name := some "test"
    Description := none
    Type_ := .SIGNER_TYPE_INMEM
    SignerConfig := some (.Signer_InMem (some { Key := .PRIVATE_KEY_TYPE_RSA, KeySize := some 4096 })) }

/-- The request made by the test client, self-signed with the key it embeds. -/
def sampleCSR : x509.CertificateRequest :=
  { PublicKeyAlgorithm := .RSA
    PublicKey := 11
    Subject := { Country := ["GB"], Organization := ["test"],
                 OrganizationalUnit := ["testing"], CommonName := "test" }
    RawSubject := []
    DNSNames := []
    IPAddresses := []
    EmailAddresses := []
    URIs := []
    sigKey := some 11 }

/-- The sample request with its signature removed. -/
def unsignedCSR : x509.CertificateRequest := { sampleCSR with sigKey := none }

/-- An issuance in which nothing fails and the clock stands at `t` for both reads. -/
def calmIssuance (serial : Nat) (t : Int) : Issuance :=
  { serial := .ok serial, now1 := t, now2 := t, createErr := none, parseErr := none }

/-- An environment in which nothing fails. -/
def calmEnv : Env :=
  { prepareErr := none
    queryErr := none
    scanErr := none
    rowsErr := none
    marshalErr := none
    execErr := none
    genKey := fun _ => .ok 7
    ca := calmIssuance 5 0
    leaf := calmIssuance 9 1000000000 }

/-- An environment in which only the random source of the leaf serial number fails. -/
def noEntropyEnv : Env :=
  { calmEnv with leaf := { calmEnv.leaf with serial := .error "unexpected EOF" } }

/-- The signer that `newSigner` builds from the sample config in the calm environment. -/
def sampleSigner : inMemSigner :=
  match newSigner calmEnv (some sampleConfig) with
  | .ok i => i
  | _ => { key := { kind := .rsa, Public := 0 }, cert := {}, keyUsage := 0, extKeyUsage := [] }

/-- A server whose store holds the sample config and whose cache is empty. -/
def coldServer : Server :=
  { db := { signers := [.signerJSON sampleConfig] }, signerCache := signerCache.make }

/-- A server whose store holds the sample config and whose cache holds its signer. -/
def warmServer : Server :=
  { db := { signers := [.signerJSON sampleConfig] }
    signerCache := signerCache.make.set 1 sampleSigner }

/-- A server with an empty store and an empty cache. -/
def emptyServer : Server :=
  { db := { signers := [] }, signerCache := signerCache.make }

/-- An issuance whose two clock reads are one nanosecond apart, on either side of the
boundary of a second. -/
def straddlingIssuance : Issuance :=
  { serial := .ok 9, now1 := 999999999, now2 := 1000000000, createErr := none, parseErr := none }

/-- The sample config with its key algorithm left unspecified: the in-memory arm holds
empty parameters. -/
def keylessConfig : mgmtv1.Signer :=
  { sampleConfig with
    SignerConfig := some (.Signer_InMem
      (some { Key := .PRIVATE_KEY_TYPE_UNSPECIFIED, KeySize := none })) }

/-- A server whose store holds the config without a key algorithm and whose cache is
empty. -/
def keylessServer : Server :=
  { db := { signers := [.signerJSON keylessConfig] }, signerCache := signerCache.make }

/-! ## Lemmas on the signer and on the lazy load -/

/-- With a verifying request, a drawn serial number and no failure of the X.509 primitives,
`inMemSigner.Sign` returns the parsed encoding of its leaf template. -/
theorem inMemSigner.Sign_eq_ok (i : inMemSigner) (lenv : Issuance)
    (csr : x509.CertificateRequest) (d : Int) (n : Nat)
    (hsig : csr.CheckSignature = none) (hrand : lenv.serial = .ok n)
    (hcreate : lenv.createErr = none) (hparse : lenv.parseErr = none) :
    ∃ der : x509.DER,
      x509.CreateCertificate none (i.leafTemplate lenv csr n (if d = 0 then time.Hour else d))
        i.cert csr.PublicKey i.key = .ok der
      ∧ i.Sign lenv (some csr) d = .ok { toCertFields := der.content, Raw := some der } := by
  refine ⟨_, rfl, ?_⟩
  simp only [inMemSigner.Sign, hsig, hrand, hcreate, hparse, x509.CreateCertificate,
    x509.ParseCertificate]

/-- A request whose self-signature does not verify is refused by `inMemSigner.Sign` before
anything is drawn or built. -/
theorem inMemSigner.Sign_eq_error (i : inMemSigner) (lenv : Issuance)
    (csr : x509.CertificateRequest) (d : Int) (hsig : csr.CheckSignature ≠ none) :
    i.Sign lenv (some csr) d
      = .error (.wrap "CSR has invalid signature: " (.errorsNew "x509: invalid signature")) := by
  unfold x509.CertificateRequest.CheckSignature at hsig
  have hkey : ¬ csr.sigKey = some csr.PublicKey := by
    intro h
    exact hsig (by simp [h])
  simp [inMemSigner.Sign, x509.CertificateRequest.CheckSignature, hkey]

/-- The lazy load either returns a signer and publishes the old snapshot with that signer
under the requested ID, or returns no signer and leaves the state as it was. -/
theorem Server.loadSignerFromDataStore_cases (env : Env) (s : Server) (signerID : Int) :
    (∃ si, s.loadSignerFromDataStore env signerID
        = (.ok si, { s with signerCache :=
            (signerCache.make.copyFrom s.signerCache).set signerID si }))
    ∨ ((∀ si, (s.loadSignerFromDataStore env signerID).1 ≠ .ok si)
        ∧ (s.loadSignerFromDataStore env signerID).2 = s) := by
  unfold Server.loadSignerFromDataStore
  cases env.prepareErr with
  | some msg => right; simp
  | none =>
    cases env.queryErr with
    | some msg => right; simp
    | none =>
      cases s.db.selectById signerID with
      | nil => right; simp
      | cons row rest =>
        cases env.scanErr with
        | some msg => right; simp
        | none =>
          cases row with
          | otherJSON id msg => right; simp
          | signerJSON signerPB =>
            simp only []
            generalize newSigner env (some signerPB) = built
            cases built with
            | err e => right; simp
            | panic msg => right; simp
            | ok si => left; exact ⟨si, rfl⟩

/-- The copy of a snapshot into an empty map is the snapshot. -/
theorem signerCache.copyFrom_make (c : signerCache) : signerCache.make.copyFrom c = c := by
  funext j
  unfold signerCache.copyFrom signerCache.make
  cases c j <;> rfl

/-- The state after `Server.Sign` is the state after its cache lookup: the state before the
call on a hit, the state after the lazy load on a miss. -/
theorem Server.Sign_state (env : Env) (s : Server) (req : SignRequest) :
    (Server.Sign env s req).2
      = (match s.signerCache req.SignerId with
          | some _ => s
          | none => (s.loadSignerFromDataStore env req.SignerId).2) := by
  have key : ∀ (si : inMemSigner) (s1 : Server),
      (match x509.ParseCertificateRequest req.Csr with
        | .error e =>
          ((Outcome.err (.connectError .CodeInvalidArgument e) : Outcome SignResponse), s1)
        | .ok csr =>
          match si.Sign env.leaf (some csr) req.DurationHint with
          | .error e => (.err (.connectError .CodeInternal e), s1)
          | .ok cert => (.ok { Cert := cert.Raw }, s1)).2 = s1 := by
    intro si s1
    cases x509.ParseCertificateRequest req.Csr with
    | error e => rfl
    | ok csr =>
      simp only []
      cases si.Sign env.leaf (some csr) req.DurationHint <;> rfl
  cases hc : s.signerCache req.SignerId with
  | some signer =>
    simp only [Server.Sign, hc]
    exact key signer s
  | none =>
    rcases hl : s.loadSignerFromDataStore env req.SignerId with ⟨r, s1⟩
    cases r with
    | err e => simp only [Server.Sign, hc, hl]
    | panic msg => simp only [Server.Sign, hc, hl]
    | ok si =>
      simp only [Server.Sign, hc, hl]
      exact key si s1

/-! ## The handler `Server.Sign` -/

/-- C1, counterexample: the sample signer is cached and the sample request parses and
verifies, yet `Server.Sign` fails (with code Internal) when the random source yields no
serial number. -/
theorem Server.Sign_fails_without_entropy :
    warmServer.signerCache 1 = some sampleSigner
    ∧ x509.ParseCertificateRequest (.pkcs10 sampleCSR) = .ok sampleCSR
    ∧ sampleCSR.CheckSignature = none
    ∧ (Server.Sign noEntropyEnv warmServer
          { SignerId := 1, Csr := .pkcs10 sampleCSR, DurationHint := 0 }).1
        = .err (.connectError .CodeInternal
            (.wrap "failed to generate serial number: " (.errorsNew "unexpected EOF"))) := by
  refine ⟨rfl, rfl, rfl, rfl⟩

/-- C1, amended: for a signer that is cached or that the lazy load returns, a request that
parses and whose self-signature verifies, and any duration hint, `Server.Sign` succeeds
whenever the random source yields a serial number and the X.509 encoder and decoder do not
fail; the certificate carries the public key of the request, its issuer is the subject of
the certificate of that signer, it is signed with the key of that signer, and the signer is
cached under the requested ID after the call. -/
theorem Server.Sign_issues_for_verified_csr (env : Env) (s : Server) (req : SignRequest)
    (i : inMemSigner) (csr : x509.CertificateRequest) (n : Nat)
    (hsigner : s.signerCache req.SignerId = some i
      ∨ (s.signerCache req.SignerId = none
          ∧ (s.loadSignerFromDataStore env req.SignerId).1 = .ok i))
    (hparse : x509.ParseCertificateRequest req.Csr = .ok csr)
    (hsig : csr.CheckSignature = none)
    (hrand : env.leaf.serial = .ok n)
    (hcreate : env.leaf.createErr = none) (hparseCert : env.leaf.parseErr = none) :
    ∃ der : x509.DER,
      (Server.Sign env s req).1 = .ok { Cert := some der }
      ∧ der.content.PublicKey = some csr.PublicKey
      ∧ der.content.Issuer = i.cert.Subject
      ∧ der.signedBy = i.key.Public
      ∧ (Server.Sign env s req).2.signerCache req.SignerId = some i := by
  obtain ⟨der, hder, hsign⟩ :=
    inMemSigner.Sign_eq_ok i env.leaf csr req.DurationHint n hsig hrand hcreate hparseCert
  have hfields : der.content.PublicKey = some csr.PublicKey
      ∧ der.content.Issuer = i.cert.Subject ∧ der.signedBy = i.key.Public := by
    simp only [x509.CreateCertificate, Except.ok.injEq] at hder
    subst hder
    exact ⟨rfl, rfl, rfl⟩
  refine ⟨der, ?_, hfields.1, hfields.2.1, hfields.2.2, ?_⟩
  · rcases hsigner with hc | ⟨hnone, hload⟩
    · simp only [Server.Sign, hc, hparse, hsign]
    · rcases Server.loadSignerFromDataStore_cases env s req.SignerId with ⟨si, hl⟩ | ⟨hno, _⟩
      · rw [hl] at hload
        simp only [Outcome.ok.injEq] at hload
        subst hload
        simp only [Server.Sign, hnone, hl, hparse, hsign]
      · exact absurd hload (hno i)
  · rcases hsigner with hc | ⟨hnone, hload⟩
    · simp only [Server.Sign, hc, hparse, hsign]
    · rcases Server.loadSignerFromDataStore_cases env s req.SignerId with ⟨si, hl⟩ | ⟨hno, _⟩
      · rw [hl] at hload
        simp only [Outcome.ok.injEq] at hload
        subst hload
        simp only [Server.Sign, hnone, hl, hparse, hsign, signerCache.set, if_true]
      · exact absurd hload (hno i)

/-- C1, witness: the lazily loaded sample signer issues a certificate for the sample
request. -/
theorem Server.Sign_issues_for_verified_csr_witness :
    ∃ der : x509.DER,
      (Server.Sign calmEnv coldServer
          { SignerId := 1, Csr := .pkcs10 sampleCSR, DurationHint := 0 }).1
        = .ok { Cert := some der }
      ∧ der.content.PublicKey = some sampleCSR.PublicKey
      ∧ der.content.Issuer = sampleSigner.cert.Subject
      ∧ der.signedBy = sampleSigner.key.Public
      ∧ (Server.Sign calmEnv coldServer
          { SignerId := 1, Csr := .pkcs10 sampleCSR, DurationHint := 0 }).2.signerCache 1
        = some sampleSigner :=
  Server.Sign_issues_for_verified_csr calmEnv coldServer
    { SignerId := 1, Csr := .pkcs10 sampleCSR, DurationHint := 0 } sampleSigner sampleCSR 9
    (Or.inr ⟨rfl, rfl⟩) rfl rfl rfl rfl rfl

/-- C2, counterexample: the sample signer is cached, the unsigned request parses and its
self-signature does not verify; the error of `Server.Sign` carries the code Internal, so its
kind is not ValidationError. -/
theorem Server.Sign_unsigned_csr_not_validation :
    warmServer.signerCache 1 = some sampleSigner
    ∧ x509.ParseCertificateRequest (.pkcs10 unsignedCSR) = .ok unsignedCSR
    ∧ unsignedCSR.CheckSignature ≠ none
    ∧ ∃ e, (Server.Sign calmEnv warmServer
              { SignerId := 1, Csr := .pkcs10 unsignedCSR, DurationHint := 0 }).1 = .err e
        ∧ errorKind e ≠ .ValidationError :=
  ⟨rfl, rfl, by decide, _, rfl, by decide⟩

/-- C2, amended: for a signer that is cached or that the lazy load returns, and a parsed
request whose self-signature does not verify, `Server.Sign` returns no certificate and fails
with an InternalError: the error of the signer wrapped with the code Internal. -/
theorem Server.Sign_invalid_signature_is_internal (env : Env) (s : Server) (req : SignRequest)
    (i : inMemSigner) (csr : x509.CertificateRequest)
    (hsigner : s.signerCache req.SignerId = some i
      ∨ (s.signerCache req.SignerId = none
          ∧ (s.loadSignerFromDataStore env req.SignerId).1 = .ok i))
    (hparse : x509.ParseCertificateRequest req.Csr = .ok csr)
    (hsig : csr.CheckSignature ≠ none) :
    ∃ e, (Server.Sign env s req).1 = .err e
      ∧ e = .connectError .CodeInternal
          (.wrap "CSR has invalid signature: " (.errorsNew "x509: invalid signature"))
      ∧ errorKind e = .InternalError := by
  have hsign := inMemSigner.Sign_eq_error i env.leaf csr req.DurationHint hsig
  refine ⟨_, ?_, rfl, rfl⟩
  rcases hsigner with hc | ⟨hnone, hload⟩
  · simp only [Server.Sign, hc, hparse, hsign]
  · rcases Server.loadSignerFromDataStore_cases env s req.SignerId with ⟨si, hl⟩ | ⟨hno, _⟩
    · rw [hl] at hload
      simp only [Outcome.ok.injEq] at hload
      subst hload
      simp only [Server.Sign, hnone, hl, hparse, hsign]
    · exact absurd hload (hno i)

/-- C2, witness: the cached sample signer and the unsigned sample request. -/
theorem Server.Sign_invalid_signature_is_internal_witness :
    ∃ e, (Server.Sign calmEnv warmServer
            { SignerId := 1, Csr := .pkcs10 unsignedCSR, DurationHint := 0 }).1 = .err e
      ∧ e = .connectError .CodeInternal
          (.wrap "CSR has invalid signature: " (.errorsNew "x509: invalid signature"))
      ∧ errorKind e = .InternalError :=
  Server.Sign_invalid_signature_is_internal calmEnv warmServer
    { SignerId := 1, Csr := .pkcs10 unsignedCSR, DurationHint := 0 } sampleSigner unsignedCSR
    (Or.inl rfl) rfl (by decide)

/-- C3, counterexample: on a server whose cache is empty and whose store holds the sample
config, `Server.Sign` with unparseable request bytes returns an error, and so does
`Server.Sign` with the unsigned request; after either call the cache differs from the cache
before it. -/
theorem Server.Sign_error_after_load_changes_cache :
    coldServer.signerCache 1 = none
    ∧ (Server.Sign calmEnv coldServer { SignerId := 1, Csr := .malformed [], DurationHint := 0 }).1
        = .err (.connectError .CodeInvalidArgument
            (.errorsNew "x509: malformed certificate request"))
    ∧ (Server.Sign calmEnv coldServer
          { SignerId := 1, Csr := .malformed [], DurationHint := 0 }).2.signerCache
        ≠ coldServer.signerCache
    ∧ (Server.Sign calmEnv coldServer
          { SignerId := 1, Csr := .pkcs10 unsignedCSR, DurationHint := 0 }).1
        = .err (.connectError .CodeInternal
            (.wrap "CSR has invalid signature: " (.errorsNew "x509: invalid signature")))
    ∧ (Server.Sign calmEnv coldServer
          { SignerId := 1, Csr := .pkcs10 unsignedCSR, DurationHint := 0 }).2.signerCache
        ≠ coldServer.signerCache := by
  refine ⟨rfl, rfl, ?_, rfl, ?_⟩
  · intro h
    exact absurd (congrFun h 1) (by decide)
  · intro h
    exact absurd (congrFun h 1) (by decide)

/-- C3, amended: when `Server.Sign` returns an error, the store is as before and the cache
is as before at every ID other than the requested one; the whole cache is as before when the
requested signer was cached or the lazy load returned no signer; and when the lazy load
returned a signer before the call failed, the cache after the call is the cache before it
with that signer under the requested ID, and the error is the InvalidArgument of the
request parser or the Internal of the signer. -/
theorem Server.Sign_error_cache_frame (env : Env) (s : Server) (req : SignRequest) (e : GoError)
    (herr : (Server.Sign env s req).1 = .err e) :
    (Server.Sign env s req).2.db = s.db
    ∧ (∀ k, k ≠ req.SignerId →
        (Server.Sign env s req).2.signerCache k = s.signerCache k)
    ∧ ((s.signerCache req.SignerId ≠ none
          ∨ ∀ si, (s.loadSignerFromDataStore env req.SignerId).1 ≠ .ok si) →
        (Server.Sign env s req).2.signerCache = s.signerCache)
    ∧ (∀ si, s.signerCache req.SignerId = none →
        (s.loadSignerFromDataStore env req.SignerId).1 = .ok si →
        (Server.Sign env s req).2.signerCache = s.signerCache.set req.SignerId si
        ∧ (connectCodeOf e = .CodeInvalidArgument ∨ connectCodeOf e = .CodeInternal)) := by
  rw [Server.Sign_state]
  cases hc : s.signerCache req.SignerId with
  | some signer =>
    refine ⟨rfl, fun _ _ => rfl, fun _ => rfl, fun si h => ?_⟩
    cases h
  | none =>
    rcases Server.loadSignerFromDataStore_cases env s req.SignerId with ⟨si, hl⟩ | ⟨hno, hsame⟩
    · simp only [Server.Sign, hc, hl] at herr
      simp only [hl, signerCache.copyFrom_make]
      refine ⟨trivial, ?_, ?_, ?_⟩
      · intro k hk
        simp [signerCache.set, hk]
      · rintro (h | h)
        · exact absurd rfl h
        · exact absurd rfl (h si)
      · intro sj _ hj
        simp only [Outcome.ok.injEq] at hj
        refine ⟨by rw [hj], ?_⟩
        cases hp : x509.ParseCertificateRequest req.Csr with
        | error e1 =>
          rw [hp] at herr
          simp only [Outcome.err.injEq] at herr
          left
          rw [← herr]
          rfl
        | ok csr =>
          rw [hp] at herr
          simp only [] at herr
          cases hs : si.Sign env.leaf (some csr) req.DurationHint with
          | error e1 =>
            rw [hs] at herr
            simp only [Outcome.err.injEq] at herr
            right
            rw [← herr]
            rfl
          | ok cert =>
            rw [hs] at herr
            cases herr
    · simp only [hsame]
      refine ⟨trivial, fun _ _ => trivial, fun _ => trivial, fun si _ h => absurd h (hno si)⟩

/-- C3, witness: the failing call with unparseable bytes on the server with an empty
cache. -/
theorem Server.Sign_error_cache_frame_witness :
    (Server.Sign calmEnv coldServer
        { SignerId := 1, Csr := .malformed [], DurationHint := 0 }).2.db = coldServer.db
    ∧ (∀ k, k ≠ 1 →
        (Server.Sign calmEnv coldServer
          { SignerId := 1, Csr := .malformed [], DurationHint := 0 }).2.signerCache k
        = coldServer.signerCache k)
    ∧ ((coldServer.signerCache 1 ≠ none
          ∨ ∀ si, (coldServer.loadSignerFromDataStore calmEnv 1).1 ≠ .ok si) →
        (Server.Sign calmEnv coldServer
          { SignerId := 1, Csr := .malformed [], DurationHint := 0 }).2.signerCache
        = coldServer.signerCache)
    ∧ (∀ si, coldServer.signerCache 1 = none →
        (coldServer.loadSignerFromDataStore calmEnv 1).1 = .ok si →
        (Server.Sign calmEnv coldServer
          { SignerId := 1, Csr := .malformed [], DurationHint := 0 }).2.signerCache
        = coldServer.signerCache.set 1 si
        ∧ (connectCodeOf (.connectError .CodeInvalidArgument
              (.errorsNew "x509: malformed certificate request")) = .CodeInvalidArgument
            ∨ connectCodeOf (.connectError .CodeInvalidArgument
              (.errorsNew "x509: malformed certificate request")) = .CodeInternal)) :=
  Server.Sign_error_cache_frame calmEnv coldServer
    { SignerId := 1, Csr := .malformed [], DurationHint := 0 }
    (.connectError .CodeInvalidArgument (.errorsNew "x509: malformed certificate request")) rfl

/-- C4, the code at the failing input: with no cache entry and no stored config for ID 1,
`Server.Sign` fails with the bare error "signer not found", whose kind is Unclassified, and
`Server.TrustBundle` fails with the same error under the code Internal, whose kind is
InternalError; neither is a NotFoundError. -/
theorem Server.unknown_signer_error_kinds :
    emptyServer.signerCache 1 = none
    ∧ emptyServer.db.selectById 1 = []
    ∧ (Server.Sign calmEnv emptyServer
          { SignerId := 1, Csr := .pkcs10 sampleCSR, DurationHint := 0 }).1
        = .err (.errorsNew "signer not found")
    ∧ errorKind (.errorsNew "signer not found") = .Unclassified
    ∧ (Server.TrustBundle calmEnv emptyServer { SignerId := 1 }).1
        = .err (.connectError .CodeInternal (.errorsNew "signer not found"))
    ∧ errorKind (.connectError .CodeInternal (.errorsNew "signer not found")) = .InternalError
    ∧ ErrorKind.Unclassified ≠ ErrorKind.NotFoundError
    ∧ ErrorKind.InternalError ≠ ErrorKind.NotFoundError := by
  refine ⟨rfl, rfl, rfl, rfl, rfl, rfl, by decide, by decide⟩

/-! ## The validity window -/

/-- C5, the code at the failing input: with a zero duration hint and two clock reads one
nanosecond apart across the boundary of a second, the sample signer issues a certificate
whose window is one hour and one second, not one hour. -/
theorem inMemSigner.Sign_default_window_off_by_clock :
    sampleCSR.CheckSignature = none
    ∧ ∃ cert, sampleSigner.Sign straddlingIssuance (some sampleCSR) 0 = .ok cert
        ∧ cert.NotAfter - cert.NotBefore = time.Hour + 1000000000
        ∧ cert.NotAfter - cert.NotBefore ≠ time.Hour :=
  ⟨rfl, _, rfl, by decide, by decide⟩

/-- When the two clock reads return the same instant, a certificate issued for a zero
duration hint has a window of exactly one hour. -/
theorem inMemSigner.Sign_default_window_single_instant (i : inMemSigner) (lenv : Issuance)
    (csr : Option x509.CertificateRequest) (cert : x509.Certificate)
    (hclock : lenv.now1 = lenv.now2) (hok : i.Sign lenv csr 0 = .ok cert) :
    cert.NotAfter - cert.NotBefore = time.Hour := by
  unfold inMemSigner.Sign at hok
  cases csr with
  | none => cases hok
  | some csr =>
    simp only [] at hok
    cases hsig : csr.CheckSignature with
    | some e => rw [hsig] at hok; cases hok
    | none =>
      rw [hsig] at hok
      simp only [] at hok
      cases hrand : lenv.serial with
      | error msg => rw [hrand] at hok; cases hok
      | ok n =>
        rw [hrand] at hok
        simp only [] at hok
        cases hcreate : lenv.createErr with
        | some msg => rw [hcreate] at hok; cases hok
        | none =>
          cases hparse : lenv.parseErr with
          | some msg =>
            rw [hcreate, hparse] at hok
            cases hok
          | none =>
            rw [hcreate, hparse] at hok
            simp only [x509.CreateCertificate, x509.ParseCertificate, Except.ok.injEq] at hok
            subst hok
            simp only [inMemSigner.leafTemplate, truncSecond, time.Hour, if_true]
            omega

/-- C6, counterexample: with a duration hint of minus one hour the sample signer issues a
certificate whose NotAfter is before its NotBefore, and with a hint of one nanosecond one
whose NotAfter equals its NotBefore. -/
theorem inMemSigner.Sign_window_not_positive :
    sampleCSR.CheckSignature = none
    ∧ (∃ cert, sampleSigner.Sign (calmIssuance 9 1000000000) (some sampleCSR) (-3600000000000)
          = .ok cert
        ∧ cert.NotAfter < cert.NotBefore)
    ∧ (∃ cert, sampleSigner.Sign (calmIssuance 9 1000000000) (some sampleCSR) 1 = .ok cert
        ∧ cert.NotAfter = cert.NotBefore) :=
  ⟨rfl, ⟨_, rfl, by decide⟩, ⟨_, rfl, by decide⟩⟩

/-- C6, amended: when the duration hint is zero or at least one second and the second clock
read is not earlier than the first, every certificate that `inMemSigner.Sign` issues has
its NotAfter strictly later than its NotBefore. -/
theorem inMemSigner.Sign_window_positive (i : inMemSigner) (lenv : Issuance)
    (csr : Option x509.CertificateRequest) (d : Int) (cert : x509.Certificate)
    (hd : d = 0 ∨ 1000000000 ≤ d) (hclock : lenv.now1 ≤ lenv.now2)
    (hok : i.Sign lenv csr d = .ok cert) :
    cert.NotBefore < cert.NotAfter := by
  unfold inMemSigner.Sign at hok
  cases csr with
  | none => cases hok
  | some csr =>
    simp only [] at hok
    cases hsig : csr.CheckSignature with
    | some e => rw [hsig] at hok; cases hok
    | none =>
      rw [hsig] at hok
      simp only [] at hok
      cases hrand : lenv.serial with
      | error msg => rw [hrand] at hok; cases hok
      | ok n =>
        rw [hrand] at hok
        simp only [] at hok
        cases hcreate : lenv.createErr with
        | some msg => rw [hcreate] at hok; cases hok
        | none =>
          cases hparse : lenv.parseErr with
          | some msg =>
            rw [hcreate, hparse] at hok
            cases hok
          | none =>
            rw [hcreate, hparse] at hok
            simp only [x509.CreateCertificate, x509.ParseCertificate, Except.ok.injEq] at hok
            subst hok
            simp only [inMemSigner.leafTemplate, truncSecond, time.Hour]
            rcases hd with h0 | h1
            · subst h0
              simp only [if_true]
              omega
            · have hne : d ≠ 0 := by omega
              simp only [hne, if_false]
              omega

/-- C6, witness: the sample signer with a hint of one hour. -/
theorem inMemSigner.Sign_window_positive_witness :
    ∃ cert, sampleSigner.Sign (calmIssuance 9 1000000000) (some sampleCSR) 3600000000000
        = .ok cert
      ∧ cert.NotBefore < cert.NotAfter :=
  ⟨_, rfl, inMemSigner.Sign_window_positive sampleSigner (calmIssuance 9 1000000000)
    (some sampleCSR) 3600000000000 _ (Or.inr (by decide)) (by decide) rfl⟩

/-! ## Validation of a config -/

/-- The decimal rendering of an integer ends in a digit. -/
theorem strconv.Itoa_data (n : Int) :
    ∃ (front : List Char) (d : Nat), d < 10
      ∧ (strconv.Itoa n).data = front ++ [Char.ofNat (48 + d)] := by
  refine ⟨(if n < 0 then [('-' : Char)] else [])
      ++ (if n.natAbs / 10 = 0 then [] else strconv.revDigits n.natAbs (n.natAbs / 10)).reverse,
    n.natAbs % 10, Nat.mod_lt _ (by decide), ?_⟩
  simp only [strconv.Itoa, strconv.revDigits, List.reverse_cons, List.append_assoc]

/-- The decimal rendering of an integer is neither empty nor the name of the unspecified
signer type. -/
theorem strconv.Itoa_ne_name (n : Int) :
    strconv.Itoa n ≠ "SIGNER_TYPE_UNSPECIFIED" ∧ strconv.Itoa n ≠ "" := by
  obtain ⟨front, d, hd, hdata⟩ := strconv.Itoa_data n
  constructor
  · intro h
    have hlast := congrArg List.getLast? (hdata.symm.trans (congrArg String.data h))
    rw [List.getLast?_append, List.getLast?_singleton] at hlast
    have hchar : Char.ofNat (48 + d) = 'D' := by
      have hD : "SIGNER_TYPE_UNSPECIFIED".data.getLast? = some 'D' := by decide
      rw [hD] at hlast
      simpa using hlast
    interval_cases d <;> exact absurd hchar (by decide)
  · intro h
    have hnil := hdata.symm.trans (congrArg String.data h)
    have hlen := congrArg List.length hnil
    simp at hlen

/-- The name of a signer type is that of the unspecified type, or empty, exactly for the
unspecified type. -/
theorem mgmtv1.SignerType.String_unspecified_iff (t : mgmtv1.SignerType) :
    (t.String = "SIGNER_TYPE_UNSPECIFIED" ∨ t.String = "") ↔ t = .SIGNER_TYPE_UNSPECIFIED := by
  cases t with
  | SIGNER_TYPE_UNSPECIFIED => simp [mgmtv1.SignerType.String]
  | SIGNER_TYPE_INMEM =>
    simp only [mgmtv1.SignerType.String, reduceCtorEq, iff_false, not_or]
    exact ⟨by decide, by decide⟩
  | unrecognized n =>
    simp only [mgmtv1.SignerType.String, reduceCtorEq, iff_false, not_or]
    exact strconv.Itoa_ne_name n

/-- C7: `validation.Signer` returns no error exactly for a config that is non-nil, has an ID
that is present and not zero, a backend type other than SIGNER_TYPE_UNSPECIFIED, and a
non-nil SignerConfig; a nil config is rejected with ErrNilSigner. -/
theorem validation.Signer_accepts_iff (s : Option mgmtv1.Signer) :
    (validation.Signer s = none ↔
      ∃ c, s = some c
        ∧ (∃ id, c.Id = some id ∧ id ≠ 0)
        ∧ c.Type_ ≠ .SIGNER_TYPE_UNSPECIFIED
        ∧ c.SignerConfig ≠ none)
    ∧ validation.Signer none = some validation.ErrNilSigner := by
  refine ⟨?_, rfl⟩
  cases s with
  | none => simp [validation.Signer]
  | some c =>
    have hid : (c.Id = none ∨ c.Id = some 0) ↔ ¬ ∃ id, c.Id = some id ∧ id ≠ 0 := by
      cases c.Id with
      | none => simp
      | some v => simp
    have hty := mgmtv1.SignerType.String_unspecified_iff c.Type_
    have hlen : (validation.signerErrs c).length > 0 ↔
        ((c.Id = none ∨ c.Id = some 0)
          ∨ (c.Type_.String = "SIGNER_TYPE_UNSPECIFIED" ∨ c.Type_.String = "")
          ∨ c.SignerConfig = none) := by
      unfold validation.signerErrs
      by_cases h1 : (c.Id = none ∨ c.Id = some 0)
      · simp [h1]
      · by_cases h2 : (c.Type_.String = "SIGNER_TYPE_UNSPECIFIED" ∨ c.Type_.String = "")
        · simp [h1, h2]
        · by_cases h3 : c.SignerConfig = none
          · simp [h1, h2, h3]
          · simp [h1, h2, h3]
    have hacc : validation.Signer (some c) = none ↔ ¬ (validation.signerErrs c).length > 0 := by
      unfold validation.Signer
      by_cases h : (validation.signerErrs c).length > 0
      · simp [h]
      · simp [h]
    rw [hacc, hlen, hid, hty]
    simp only [Option.some.injEq, exists_eq_left', ne_eq, not_or, not_not]

/-! ## The signer factory -/

/-- A certificate returned by `util.GenerateSelfSignedCA` is a parsed, self-issued CA
certificate over the public half of the key, signed with that key. -/
theorem util.GenerateSelfSignedCA_ok (lenv : Issuance) (key : PrivateKey)
    (cert : x509.Certificate) (h : util.GenerateSelfSignedCA lenv key = .ok cert) :
    cert.Raw = some { content := cert.toCertFields, signedBy := key.Public }
    ∧ cert.Issuer = cert.Subject
    ∧ cert.IsCA = true
    ∧ cert.PublicKey = some key.Public := by
  unfold util.GenerateSelfSignedCA at h
  cases hrand : lenv.serial with
  | error msg => rw [hrand] at h; cases h
  | ok n =>
    rw [hrand] at h
    simp only [] at h
    cases hcreate : lenv.createErr with
    | some msg => rw [hcreate] at h; cases hk : key.kind <;> rw [hk] at h <;> cases h
    | none =>
      cases hparse : lenv.parseErr with
      | some msg => rw [hcreate, hparse] at h; cases hk : key.kind <;> rw [hk] at h <;> cases h
      | none =>
        rw [hcreate, hparse] at h
        cases hk : key.kind <;> rw [hk] at h <;>
          first
          | (cases h; done)
          | (simp only [x509.CreateCertificate, x509.ParseCertificate, Except.ok.injEq] at h
             subst h
             exact ⟨rfl, rfl, rfl, rfl⟩)

/-- A signer returned by `newSigner` carries the leaf policy of the in-memory backend and a
parsed, self-issued CA certificate over the public half of its key. -/
theorem newSigner_ok (env : Env) (cfg : Option mgmtv1.Signer) (i : inMemSigner)
    (h : newSigner env cfg = .ok i) :
    i.keyUsage = x509.KeyUsageDigitalSignature ||| x509.KeyUsageKeyEncipherment
    ∧ i.extKeyUsage = [.ExtKeyUsageServerAuth, .ExtKeyUsageClientAuth]
    ∧ i.cert.Raw = some { content := i.cert.toCertFields, signedBy := i.key.Public }
    ∧ i.cert.Issuer = i.cert.Subject
    ∧ i.cert.IsCA = true
    ∧ i.cert.PublicKey = some i.key.Public := by
  unfold newSigner at h
  cases cfg with
  | none => cases h
  | some c =>
    simp only [] at h
    cases hty : c.Type_ with
    | SIGNER_TYPE_UNSPECIFIED => rw [hty] at h; cases h
    | unrecognized n => rw [hty] at h; cases h
    | SIGNER_TYPE_INMEM =>
      rw [hty] at h
      simp only [] at h
      cases hcfg : c.SignerConfig with
      | none => rw [hcfg] at h; cases h
      | some config =>
        rw [hcfg] at h
        simp only [] at h
        unfold newInMemSigner at h
        cases config with
        | Signer_InMem InMem =>
          cases InMem with
          | none => cases h
          | some params =>
            simp only [] at h
            cases hkey : params.Key with
            | PRIVATE_KEY_TYPE_UNSPECIFIED => rw [hkey] at h; cases h
            | unrecognized n => rw [hkey] at h; cases h
            | PRIVATE_KEY_TYPE_RSA =>
              rw [hkey] at h
              simp only [] at h
              generalize (match params.KeySize with
                | some keySize => keySize
                | none => (2048 : Int)) = bits at h
              cases hgen : env.genKey bits with
              | error msg => rw [hgen] at h; cases h
              | ok pub =>
                rw [hgen] at h
                simp only [] at h
                cases hca : util.GenerateSelfSignedCA env.ca { kind := .rsa, Public := pub } with
                | error e => rw [hca] at h; cases h
                | ok cert =>
                  rw [hca] at h
                  simp only [Outcome.ok.injEq] at h
                  subst h
                  have hprops := util.GenerateSelfSignedCA_ok env.ca _ cert hca
                  exact ⟨rfl, rfl, hprops.1, hprops.2.1, hprops.2.2.1, hprops.2.2.2⟩

/-- C8, counterexample: for the stored config whose in-memory key algorithm is unspecified,
`newSigner` returns the bare error ErrMissingKeyType, whose kind is Unclassified and not
ValidationError; `Server.Sign` passes it on under no code and `Server.TrustBundle` under the
code Internal; and for the in-memory config with no SignerConfig at all `newSigner` returns
no error: the type assertion panics. -/
theorem newSigner_rejection_not_validation :
    newSigner calmEnv (some keylessConfig) = .err validation.ErrMissingKeyType
    ∧ errorKind validation.ErrMissingKeyType = .Unclassified
    ∧ errorKind validation.ErrMissingKeyType ≠ .ValidationError
    ∧ (∃ e, (Server.Sign calmEnv keylessServer
                { SignerId := 1, Csr := .pkcs10 sampleCSR, DurationHint := 0 }).1 = .err e
          ∧ errorKind e = .Unclassified)
    ∧ (∃ e, (Server.TrustBundle calmEnv keylessServer { SignerId := 1 }).1 = .err e
          ∧ errorKind e = .InternalError)
    ∧ newSigner calmEnv (some { sampleConfig with SignerConfig := none })
        = .panic "interface conversion: interface is nil, not *mgmtv1.Signer_InMem" :=
  ⟨rfl, rfl, by decide, ⟨_, rfl, rfl⟩, ⟨_, rfl, rfl⟩, rfl⟩

/-- C8, amended: for a config that is absent, or whose backend type is not the in-memory one
(unspecified or unsupported), or whose backend type is in-memory with parameters present
whose key algorithm is not RSA (unspecified or unsupported), `newSigner` returns no signer
and, whatever the environment, one of the bare errors ErrNilSigner, ErrMissingType, "signer
type not implemented", ErrMissingKeyType, "key type not implemented"; the error carries no
code: its kind is Unclassified, not ValidationError. -/
theorem newSigner_rejects_unclassified (env : Env) (s : Option mgmtv1.Signer)
    (h : s = none
      ∨ ∃ c, s = some c
        ∧ (c.Type_ ≠ .SIGNER_TYPE_INMEM
          ∨ (c.Type_ = .SIGNER_TYPE_INMEM
              ∧ ∃ params, c.SignerConfig = some (.Signer_InMem (some params))
                ∧ params.Key ≠ .PRIVATE_KEY_TYPE_RSA))) :
    ∃ e, newSigner env s = .err e
      ∧ (e = validation.ErrNilSigner ∨ e = validation.ErrMissingType
          ∨ e = .errorsNew "signer type not implemented"
          ∨ e = validation.ErrMissingKeyType ∨ e = .errorsNew "key type not implemented")
      ∧ errorKind e = .Unclassified
      ∧ errorKind e ≠ .ValidationError := by
  rcases h with rfl | ⟨c, rfl, hc⟩
  · exact ⟨validation.ErrNilSigner, rfl, Or.inl rfl, rfl, by decide⟩
  · rcases hc with hty | ⟨hty, params, hcfg, hkey⟩
    · cases ht : c.Type_ with
      | SIGNER_TYPE_UNSPECIFIED =>
        exact ⟨validation.ErrMissingType, by simp only [newSigner, ht],
          Or.inr (Or.inl rfl), rfl, by decide⟩
      | SIGNER_TYPE_INMEM => exact absurd ht hty
      | unrecognized n =>
        exact ⟨.errorsNew "signer type not implemented", by simp only [newSigner, ht],
          Or.inr (Or.inr (Or.inl rfl)), rfl, by decide⟩
    · cases hk : params.Key with
      | PRIVATE_KEY_TYPE_UNSPECIFIED =>
        exact ⟨validation.ErrMissingKeyType,
          by simp only [newSigner, hty, hcfg, newInMemSigner, hk],
          Or.inr (Or.inr (Or.inr (Or.inl rfl))), rfl, by decide⟩
      | PRIVATE_KEY_TYPE_RSA => exact absurd hk hkey
      | unrecognized n =>
        exact ⟨.errorsNew "key type not implemented",
          by simp only [newSigner, hty, hcfg, newInMemSigner, hk],
          Or.inr (Or.inr (Or.inr (Or.inr rfl))), rfl, by decide⟩

/-- C8, witness: the config with its key algorithm left unspecified. -/
theorem newSigner_rejects_unclassified_witness :
    ∃ e, newSigner calmEnv (some keylessConfig) = .err e
      ∧ (e = validation.ErrNilSigner ∨ e = validation.ErrMissingType
          ∨ e = .errorsNew "signer type not implemented"
          ∨ e = validation.ErrMissingKeyType ∨ e = .errorsNew "key type not implemented")
      ∧ errorKind e = .Unclassified
      ∧ errorKind e ≠ .ValidationError :=
  newSigner_rejects_unclassified calmEnv (some keylessConfig)
    (Or.inr ⟨_, rfl, Or.inr ⟨rfl, _, rfl, by decide⟩⟩)

/-! ## The leaf template -/

/-- C9: for a signer built by `newSigner` and a request whose self-signature verifies, the
leaf template that `inMemSigner.Sign` hands to `x509.CreateCertificate` has IsCA false, the
key usage DigitalSignature | KeyEncipherment, the extended key usages ServerAuth and
ClientAuth in that order, and the PublicKey, Subject, DNSNames, IPAddresses, EmailAddresses
and URIs of the request, unchanged. -/
theorem inMemSigner.leafTemplate_policy (env : Env) (cfg : Option mgmtv1.Signer)
    (i : inMemSigner) (lenv : Issuance) (csr : x509.CertificateRequest) (d : Int) (n : Nat)
    (hbuilt : newSigner env cfg = .ok i)
    (hsig : csr.CheckSignature = none) (hrand : lenv.serial = .ok n) :
    ∃ template : x509.Certificate,
      template = i.leafTemplate lenv csr n (if d = 0 then time.Hour else d)
      ∧ i.Sign lenv (some csr) d
          = (match x509.CreateCertificate lenv.createErr template i.cert csr.PublicKey i.key with
              | .error e => .error (.wrap "failed to create certificate: " e)
              | .ok der => x509.ParseCertificate lenv.parseErr der)
      ∧ template.IsCA = false
      ∧ template.KeyUsage = x509.KeyUsageDigitalSignature ||| x509.KeyUsageKeyEncipherment
      ∧ template.ExtKeyUsage = [.ExtKeyUsageServerAuth, .ExtKeyUsageClientAuth]
      ∧ template.PublicKey = some csr.PublicKey
      ∧ template.Subject = csr.Subject
      ∧ template.DNSNames = csr.DNSNames
      ∧ template.IPAddresses = csr.IPAddresses
      ∧ template.EmailAddresses = csr.EmailAddresses
      ∧ template.URIs = csr.URIs := by
  obtain ⟨hku, heku, _⟩ := newSigner_ok env cfg i hbuilt
  refine ⟨_, rfl, ?_, rfl, hku, heku, rfl, rfl, rfl, rfl, rfl, rfl⟩
  simp only [inMemSigner.Sign, hsig, hrand]

/-- C9, witness: the sample signer and the sample request. -/
theorem inMemSigner.leafTemplate_policy_witness :
    ∃ template : x509.Certificate,
      template = sampleSigner.leafTemplate (calmIssuance 9 1000000000) sampleCSR 9
        (if (0 : Int) = 0 then time.Hour else 0)
      ∧ sampleSigner.Sign (calmIssuance 9 1000000000) (some sampleCSR) 0
          = (match x509.CreateCertificate (calmIssuance 9 1000000000).createErr template
                sampleSigner.cert sampleCSR.PublicKey sampleSigner.key with
              | .error e => .error (.wrap "failed to create certificate: " e)
              | .ok der => x509.ParseCertificate (calmIssuance 9 1000000000).parseErr der)
      ∧ template.IsCA = false
      ∧ template.KeyUsage = x509.KeyUsageDigitalSignature ||| x509.KeyUsageKeyEncipherment
      ∧ template.ExtKeyUsage = [.ExtKeyUsageServerAuth, .ExtKeyUsageClientAuth]
      ∧ template.PublicKey = some sampleCSR.PublicKey
      ∧ template.Subject = sampleCSR.Subject
      ∧ template.DNSNames = sampleCSR.DNSNames
      ∧ template.IPAddresses = sampleCSR.IPAddresses
      ∧ template.EmailAddresses = sampleCSR.EmailAddresses
      ∧ template.URIs = sampleCSR.URIs :=
  inMemSigner.leafTemplate_policy calmEnv (some sampleConfig) sampleSigner
    (calmIssuance 9 1000000000) sampleCSR 0 9 rfl rfl rfl

/-! ## The handler `Server.TrustBundle` -/

/-- C10: for a signer ID present in the cache, `Server.TrustBundle` returns exactly one
certificate, the bytes of the CA certificate of that signer, and leaves the state as it was;
a second call for that ID, in any environment, returns the same bytes; and for a signer
built by `newSigner` those bytes encode a self-issued CA certificate over the key of the
signer, signed with that key. -/
theorem Server.TrustBundle_cached (env env2 : Env) (s : Server) (req : TrustBundleRequest)
    (i : inMemSigner) (hc : s.signerCache req.SignerId = some i) :
    Server.TrustBundle env s req = (.ok { Certs := [i.cert.Raw] }, s)
    ∧ (Server.TrustBundle env2 (Server.TrustBundle env s req).2 req).1
        = (Server.TrustBundle env s req).1
    ∧ (∀ env0 cfg, newSigner env0 cfg = .ok i →
        i.cert.Raw = some { content := i.cert.toCertFields, signedBy := i.key.Public }
        ∧ i.cert.IsCA = true
        ∧ i.cert.Issuer = i.cert.Subject
        ∧ i.cert.PublicKey = some i.key.Public) := by
  have hcall : ∀ e : Env, Server.TrustBundle e s req = (.ok { Certs := [i.cert.Raw] }, s) := by
    intro e
    simp only [Server.TrustBundle, hc, inMemSigner.TrustBundle, List.foldl, List.nil_append]
  refine ⟨hcall env, ?_, ?_⟩
  · rw [hcall env, hcall env2]
  · intro env0 cfg hbuilt
    obtain ⟨_, _, hraw, hiss, hca, hpub⟩ := newSigner_ok env0 cfg i hbuilt
    exact ⟨hraw, hca, hiss, hpub⟩

/-- C10, witness: the server whose cache holds the sample signer under ID 1. -/
theorem Server.TrustBundle_cached_witness :
    Server.TrustBundle calmEnv warmServer { SignerId := 1 }
      = (.ok { Certs := [sampleSigner.cert.Raw] }, warmServer)
    ∧ (Server.TrustBundle noEntropyEnv
          (Server.TrustBundle calmEnv warmServer { SignerId := 1 }).2 { SignerId := 1 }).1
        = (Server.TrustBundle calmEnv warmServer { SignerId := 1 }).1
    ∧ (∀ env0 cfg, newSigner env0 cfg = .ok sampleSigner →
        sampleSigner.cert.Raw
          = some { content := sampleSigner.cert.toCertFields, signedBy := sampleSigner.key.Public }
        ∧ sampleSigner.cert.IsCA = true
        ∧ sampleSigner.cert.Issuer = sampleSigner.cert.Subject
        ∧ sampleSigner.cert.PublicKey = some sampleSigner.key.Public) :=
  Server.TrustBundle_cached calmEnv noEntropyEnv warmServer { SignerId := 1 } sampleSigner rfl

/-! ## Publishing and invalidating cache entries -/

/-- A successful lazy load read a first selected row that decodes to a config, built its
signer with `newSigner`, and published the old snapshot with that signer under the
requested ID. -/
theorem Server.loadSignerFromDataStore_ok (env : Env) (s s1 : Server) (signerID : Int)
    (si : inMemSigner) (hload : s.loadSignerFromDataStore env signerID = (.ok si, s1)) :
    (∃ signerPB rest, s.db.selectById signerID = .signerJSON signerPB :: rest
        ∧ newSigner env (some signerPB) = .ok si)
    ∧ s1 = { s with signerCache := (signerCache.make.copyFrom s.signerCache).set signerID si } := by
  unfold Server.loadSignerFromDataStore at hload
  cases hprep : env.prepareErr with
  | some msg => rw [hprep] at hload; cases hload
  | none =>
    cases hquery : env.queryErr with
    | some msg => rw [hprep, hquery] at hload; cases hload
    | none =>
      cases hrows : s.db.selectById signerID with
      | nil => rw [hprep, hquery, hrows] at hload; cases hload
      | cons row rest =>
        cases hscan : env.scanErr with
        | some msg => rw [hprep, hquery, hrows, hscan] at hload; cases hload
        | none =>
          rw [hprep, hquery, hrows, hscan] at hload
          cases row with
          | otherJSON id msg => cases hload
          | signerJSON signerPB =>
            simp only [] at hload
            cases hbuilt : newSigner env (some signerPB) with
            | err e => rw [hbuilt] at hload; cases hload
            | panic msg => rw [hbuilt] at hload; cases hload
            | ok sj =>
              rw [hbuilt] at hload
              simp only [Prod.mk.injEq, Outcome.ok.injEq] at hload
              obtain ⟨hsi, hs1⟩ := hload
              subst hsi
              exact ⟨⟨signerPB, rest, rfl, hbuilt⟩, hs1.symm⟩

/-- C11: when the lazy load for an ID succeeds, the published snapshot maps that ID to the
newly built signer, the one returned to the caller, and maps every other ID as the previous
snapshot did; the store is as before. -/
theorem Server.loadSignerFromDataStore_publishes (env : Env) (s s1 : Server) (signerID : Int)
    (si : inMemSigner) (hload : s.loadSignerFromDataStore env signerID = (.ok si, s1)) :
    s1.signerCache signerID = some si
    ∧ (∀ k, k ≠ signerID → s1.signerCache k = s.signerCache k)
    ∧ (∃ signerPB rest, s.db.selectById signerID = .signerJSON signerPB :: rest
        ∧ newSigner env (some signerPB) = .ok si)
    ∧ s1.db = s.db := by
  obtain ⟨hbuilt, hs1⟩ := Server.loadSignerFromDataStore_ok env s s1 signerID si hload
  subst hs1
  refine ⟨?_, ?_, hbuilt, rfl⟩
  · simp [signerCache.set]
  · intro k hk
    simp [signerCache.set, signerCache.copyFrom_make, hk]

/-- C11, witness: the lazy load of the sample config into an empty cache. -/
theorem Server.loadSignerFromDataStore_publishes_witness :
    (coldServer.loadSignerFromDataStore calmEnv 1).2.signerCache 1 = some sampleSigner
    ∧ (∀ k, k ≠ 1 →
        (coldServer.loadSignerFromDataStore calmEnv 1).2.signerCache k
          = coldServer.signerCache k)
    ∧ (∃ signerPB rest, coldServer.db.selectById 1 = .signerJSON signerPB :: rest
        ∧ newSigner calmEnv (some signerPB) = .ok sampleSigner)
    ∧ (coldServer.loadSignerFromDataStore calmEnv 1).2.db = coldServer.db :=
  Server.loadSignerFromDataStore_publishes calmEnv coldServer
    (coldServer.loadSignerFromDataStore calmEnv 1).2 1 sampleSigner rfl

/-- C12: when the store deletion of `DeleteSigner` succeeds, the call returns, the published
snapshot has no entry for the ID and maps every other ID as the previous snapshot did; when
the ID was not cached, the snapshot is the previous one. -/
theorem Server.DeleteSigner_invalidates (env : Env) (s : Server) (req : DeleteSignerRequest)
    (hprep : env.prepareErr = none) (hexec : env.execErr = none) :
    (Server.DeleteSigner env s req).1 = .ok ()
    ∧ (Server.DeleteSigner env s req).2.signerCache req.Id = none
    ∧ (∀ k, k ≠ req.Id →
        (Server.DeleteSigner env s req).2.signerCache k = s.signerCache k)
    ∧ (s.signerCache req.Id = none →
        (Server.DeleteSigner env s req).2.signerCache = s.signerCache) := by
  have hcache : (Server.DeleteSigner env s req).2.signerCache
      = signerCache.make.copyFromExcept s.signerCache req.Id := by
    simp only [Server.DeleteSigner, hprep, hexec]
  refine ⟨by simp only [Server.DeleteSigner, hprep, hexec], ?_, ?_, ?_⟩
  · rw [hcache]
    simp [signerCache.copyFromExcept, signerCache.make]
  · intro k hk
    rw [hcache]
    simp only [signerCache.copyFromExcept, signerCache.make, ne_eq, hk, not_false_eq_true,
      if_true]
    cases s.signerCache k <;> rfl
  · intro hnone
    rw [hcache]
    funext k
    by_cases hk : k = req.Id
    · subst hk
      simp [signerCache.copyFromExcept, signerCache.make, hnone]
    · simp only [signerCache.copyFromExcept, signerCache.make, ne_eq, hk, not_false_eq_true,
        if_true]
      cases s.signerCache k <;> rfl

/-- C12, witness: the deletion of signer 1 on the server that caches it. -/
theorem Server.DeleteSigner_invalidates_witness :
    (Server.DeleteSigner calmEnv warmServer { Id := 1 }).1 = .ok ()
    ∧ (Server.DeleteSigner calmEnv warmServer { Id := 1 }).2.signerCache 1 = none
    ∧ (∀ k, k ≠ 1 →
        (Server.DeleteSigner calmEnv warmServer { Id := 1 }).2.signerCache k
          = warmServer.signerCache k)
    ∧ (warmServer.signerCache 1 = none →
        (Server.DeleteSigner calmEnv warmServer { Id := 1 }).2.signerCache
          = warmServer.signerCache) :=
  Server.DeleteSigner_invalidates calmEnv warmServer { Id := 1 } rfl rfl

/-! ## The store and the factory under the management handlers -/

/-- C14, the code at the failing input: from an empty store, two `CreateSigner` calls with
the sample config (ID 1) both succeed, the store then holds two rows with ID 1, and
`GetSigner` for ID 1 fails on them with the code Internal. -/
theorem Server.CreateSigner_accepts_duplicate_id :
    (Server.CreateSigner calmEnv Server.init { Signer := some sampleConfig }).1 = .ok ()
    ∧ (Server.CreateSigner calmEnv
          (Server.CreateSigner calmEnv Server.init { Signer := some sampleConfig }).2
          { Signer := some sampleConfig }).1 = .ok ()
    ∧ (Server.createAll calmEnv Server.init
          [{ Signer := some sampleConfig }, { Signer := some sampleConfig }]).db.ids
        = [some 1, some 1]
    ∧ Server.GetSigner calmEnv
          (Server.createAll calmEnv Server.init
            [{ Signer := some sampleConfig }, { Signer := some sampleConfig }]) { Id := 1 }
        = .err (.connectError .CodeInternal (.errorsNew "multiple signers with id 1 found")) := by
  refine ⟨rfl, rfl, rfl, ?_⟩
  decide

/-- A config whose backend type is not the in-memory one, or whose in-memory arm holds
parameters, never makes `newSigner` panic. -/
theorem newSigner_defined (env : Env) (c : mgmtv1.Signer)
    (h : c.Type_ ≠ .SIGNER_TYPE_INMEM
      ∨ ∃ params, c.SignerConfig = some (.Signer_InMem (some params))) :
    ∀ msg, newSigner env (some c) ≠ .panic msg := by
  intro msg
  rcases h with hty | ⟨params, hcfg⟩
  · cases ht : c.Type_ with
    | SIGNER_TYPE_UNSPECIFIED => simp [newSigner, ht]
    | SIGNER_TYPE_INMEM => exact absurd ht hty
    | unrecognized n => simp [newSigner, ht]
  · cases ht : c.Type_ with
    | SIGNER_TYPE_UNSPECIFIED => simp [newSigner, ht]
    | unrecognized n => simp [newSigner, ht]
    | SIGNER_TYPE_INMEM =>
      cases hk : params.Key with
      | PRIVATE_KEY_TYPE_UNSPECIFIED => simp [newSigner, ht, hcfg, newInMemSigner, hk]
      | unrecognized n => simp [newSigner, ht, hcfg, newInMemSigner, hk]
      | PRIVATE_KEY_TYPE_RSA =>
        simp only [newSigner, ht, hcfg, newInMemSigner, hk]
        generalize (match params.KeySize with
          | some keySize => keySize
          | none => (2048 : Int)) = bits
        cases hgen : env.genKey bits with
        | error e => simp
        | ok pub =>
          simp only []
          cases hca : util.GenerateSelfSignedCA env.ca { kind := .rsa, Public := pub } <;> simp

/-- A config that `validation.Signer` accepts has a SignerConfig. -/
theorem validation.Signer_config_present (c : mgmtv1.Signer)
    (h : validation.Signer (some c) = none) : c.SignerConfig ≠ none := by
  intro hnone
  simp [validation.Signer, validation.signerErrs, hnone] at h

/-- The verdict of `validation.Signer` depends on the ID, on the type and on whether a
SignerConfig is present, and on nothing else. -/
theorem validation.Signer_congr (c d : mgmtv1.Signer) (hid : c.Id = d.Id)
    (hty : c.Type_ = d.Type_) (hcfg : c.SignerConfig = none ↔ d.SignerConfig = none) :
    validation.Signer (some c) = validation.Signer (some d) := by
  simp only [validation.Signer, validation.signerErrs, hid, hty, hcfg]

/-- C15, counterexample: `validation.Signer` accepts the hand-built config whose in-memory
arm holds no parameters, and `newSigner` on that very config dereferences the nil parameters
and panics. -/
theorem newSigner_panics_on_validated_config :
    validation.Signer (some hollowConfig) = none
    ∧ newSigner calmEnv (some hollowConfig)
        = .panic "invalid memory address or nil pointer dereference" := by
  refine ⟨by decide, rfl⟩

/-- On a config whose in-memory arm holds parameters, `newSigner` returns a signer or an
error. -/
theorem newSigner_returns (env : Env) (d : mgmtv1.Signer) (params : mgmtv1.SignerInMemConfig)
    (hd : d.SignerConfig = some (.Signer_InMem (some params))) :
    (∃ i, newSigner env (some d) = .ok i) ∨ (∃ e, newSigner env (some d) = .err e) := by
  have hno := newSigner_defined env d (Or.inr ⟨params, hd⟩)
  cases hres : newSigner env (some d) with
  | ok i => exact Or.inl ⟨i, rfl⟩
  | err e => exact Or.inr ⟨e, rfl⟩
  | panic msg => exact absurd hres (hno msg)

/-- The row that `protojson.Marshal` writes for a config accepted by `validation.Signer`
decodes to a config that is accepted too and whose in-memory arm holds parameters. -/
theorem protojsonMarshal_decodes (c : mgmtv1.Signer)
    (hvalid : validation.Signer (some c) = none) :
    ∃ stored params, protojsonMarshal (some c) = .signerJSON stored
      ∧ validation.Signer (some stored) = none
      ∧ stored.SignerConfig = some (.Signer_InMem (some params)) := by
  cases harm : c.SignerConfig with
  | none => exact absurd harm (validation.Signer_config_present c hvalid)
  | some arm =>
    cases arm with
    | Signer_InMem InMem =>
      cases InMem with
      | some params =>
        exact ⟨c, params, by simp only [protojsonMarshal, harm], hvalid, harm⟩
      | none =>
        refine ⟨{ c with SignerConfig := some (.Signer_InMem
            (some { Key := .PRIVATE_KEY_TYPE_UNSPECIFIED, KeySize := none })) }, _,
          by simp only [protojsonMarshal, harm], ?_, rfl⟩
        rw [← hvalid]
        exact validation.Signer_congr _ c rfl rfl (by simp [harm])

/-- The row that a successful `CreateSigner` appends decodes to a config on which
`newSigner` does not panic, in any environment. -/
theorem Server.CreateSigner_row_defined (env env2 : Env) (s : Server)
    (req : CreateSignerRequest) (hok : (Server.CreateSigner env s req).1 = .ok ()) :
    ∃ stored, (Server.CreateSigner env s req).2.db.signers
        = s.db.signers ++ [.signerJSON stored]
      ∧ ∀ msg, newSigner env2 (some stored) ≠ .panic msg := by
  unfold Server.CreateSigner at hok ⊢
  cases hv : validation.Signer req.Signer with
  | some err => rw [hv] at hok; cases hok
  | none =>
    cases hp : env.prepareErr with
    | some msg => rw [hv, hp] at hok; cases hok
    | none =>
      cases hm : env.marshalErr with
      | some msg => rw [hv, hp, hm] at hok; cases hok
      | none =>
        cases he : env.execErr with
        | some msg => rw [hv, hp, hm, he] at hok; cases hok
        | none =>
          cases hreq : req.Signer with
          | none => rw [hreq] at hv; cases hv
          | some c =>
            rw [hreq] at hv
            obtain ⟨stored, params, hrow, _, hcfg⟩ := protojsonMarshal_decodes c hv
            refine ⟨stored, ?_, newSigner_defined env2 stored (Or.inr ⟨params, hcfg⟩)⟩
            simp only [DB.insert, hrow]

/-- Through the service the config whose in-memory arm holds no parameters is stored with
empty parameters, and `Server.Sign` for its ID then fails with an error, without a panic. -/
theorem Server.hollow_config_through_service :
    (Server.CreateSigner calmEnv Server.init { Signer := some hollowConfig }).1 = .ok ()
    ∧ (Server.CreateSigner calmEnv Server.init { Signer := some hollowConfig }).2.db.signers
        = [.signerJSON keylessConfig]
    ∧ (Server.Sign calmEnv
          (Server.CreateSigner calmEnv Server.init { Signer := some hollowConfig }).2
          { SignerId := 1, Csr := .pkcs10 sampleCSR, DurationHint := 0 }).1
        = .err (.wrap "error creating signer: " validation.ErrMissingKeyType) := by
  refine ⟨rfl, rfl, rfl⟩

/-- C15, amended: for a config accepted by `validation.Signer`, `newSigner` returns a
signer or an error on the config itself when its SignerConfig arm holds parameters, as
every decoded config does, and, in every case, on the config decoded from the row that
`protojson.Marshal` writes for it, the only form in which a config reaches `newSigner`;
that decoded config is again accepted by `validation.Signer`. -/
theorem newSigner_defined_on_validated_config (env : Env) (c : mgmtv1.Signer)
    (hvalid : validation.Signer (some c) = none) :
    (∀ params, c.SignerConfig = some (.Signer_InMem (some params)) →
        (∃ i, newSigner env (some c) = .ok i) ∨ (∃ e, newSigner env (some c) = .err e))
    ∧ ∃ stored, protojsonMarshal (some c) = .signerJSON stored
        ∧ validation.Signer (some stored) = none
        ∧ ((∃ i, newSigner env (some stored) = .ok i)
            ∨ (∃ e, newSigner env (some stored) = .err e)) := by
  refine ⟨fun params hp => newSigner_returns env c params hp, ?_⟩
  obtain ⟨stored, params, hrow, hacc, hcfg⟩ := protojsonMarshal_decodes c hvalid
  exact ⟨stored, hrow, hacc, newSigner_returns env stored params hcfg⟩

/-- C15, witness: the row written for the config whose in-memory arm holds no parameters
decodes to a config on which `newSigner` returns. -/
theorem newSigner_defined_on_validated_config_witness :
    (∀ params, hollowConfig.SignerConfig = some (.Signer_InMem (some params)) →
        (∃ i, newSigner calmEnv (some hollowConfig) = .ok i)
          ∨ (∃ e, newSigner calmEnv (some hollowConfig) = .err e))
    ∧ ∃ stored, protojsonMarshal (some hollowConfig) = .signerJSON stored
        ∧ validation.Signer (some stored) = none
        ∧ ((∃ i, newSigner calmEnv (some stored) = .ok i)
            ∨ (∃ e, newSigner calmEnv (some stored) = .err e)) :=
  newSigner_defined_on_validated_config calmEnv hollowConfig (by decide)

/-- After `DeleteSigner` on the server that stores and caches signer 1, `Server.Sign` for
that ID fails with the bare error "signer not found" and `Server.TrustBundle` with the same
error under the code Internal. -/
theorem Server.unknown_signer_after_DeleteSigner :
    (Server.DeleteSigner calmEnv warmServer { Id := 1 }).1 = .ok ()
    ∧ (Server.Sign calmEnv (Server.DeleteSigner calmEnv warmServer { Id := 1 }).2
          { SignerId := 1, Csr := .pkcs10 sampleCSR, DurationHint := 0 }).1
        = .err (.errorsNew "signer not found")
    ∧ (Server.TrustBundle calmEnv (Server.DeleteSigner calmEnv warmServer { Id := 1 }).2
          { SignerId := 1 }).1
        = .err (.connectError .CodeInternal (.errorsNew "signer not found")) := by
  refine ⟨rfl, rfl, rfl⟩

end Northfoot
